import Mathlib

/-!
Verification development for the layer-archive builder of
AnonymousMister/Crane-Jib-Tool (Go).  The Go functions under
`pkg/layer/layer.go` and `pkg/tarutil/tarutil.go` are shallowly embedded as
executable Lean definitions and the specification's claims are settled as
theorems about those definitions.  Machine integers are modelled as
unbounded `Int`/`Nat` (the values involved are far from the `int64` range
limits); effectful Go code is modelled by explicit state passing with the
outcome of each I/O operation supplied as an oracle argument.
-/

namespace CraneJib

/-! ### Pattern matcher (`matchesPattern`, layer.go:126-171)

The Go code compiles the glob pattern into a regular expression string:
`**` becomes `.*`, a single `*` becomes `[^/]*`, `?` becomes `.`, a literal
`.` becomes `\.`, and every other byte is copied into the regex verbatim.
The result is anchored as `^...$` and handed to Go's `regexp.MatchString`
(RE2).  We embed this as a direct compilation of the pattern to a list of
regex elements carrying the RE2 meaning of the emitted fragment:

* `.` (from `?` or `**`) matches any character except a newline;
* `[^/]` matches any character except `/` (including newline);
* a copied-through `+` is an RE2 repetition operator: it turns the
  preceding single atom into a one-or-more repetition, and is an RE2
  syntax error after nothing or after another repetition (then
  `regexp.MatchString` reports an error and the Go code returns `false`).

Copied-through bytes among `[ ] ( ) { } | ^ $ \` also keep their RE2
operator meaning (classes, groups, counted repetition, alternation,
anchors); those constructs are outside this model: `compileTokens` returns
`none` for them and `matchesPattern` then returns `false`.  No theorem
below quantifies over patterns containing these characters except to step
around them.  The Go code iterates over bytes; the model iterates over
characters, which coincides on the ASCII inputs all claims use. -/

/-- One RE2 atom occurring in the compiled regular expression. -/
inductive RAtom where
  | rlit (c : Char)
  | rdot
  | rnotSlash
deriving DecidableEq

/-- One element of the compiled regular expression: a bare atom, a
Kleene-starred atom, or a `+`-repeated atom. -/
inductive RElem where
  | ratom (a : RAtom)
  | rstar (a : RAtom)
  | rplus (a : RAtom)
deriving DecidableEq

/-- RE2 meaning of a single atom applied to one character. -/
def matchAtom : RAtom → Char → Bool
  | .rlit c, x => x = c
  | .rdot, x => x ≠ '\n'
  | .rnotSlash, x => x ≠ '/'

/-- Match `a*` followed by a continuation: either the continuation matches
here, or one more `a`-character is consumed. -/
def rmatchStar (matchRest : List Char → Bool) (a : RAtom) : List Char → Bool
  | [] => matchRest []
  | c :: s => matchRest (c :: s) || (matchAtom a c && rmatchStar matchRest a s)

/-- Anchored match of a compiled element list against a character list,
i.e. the meaning of `regexp.MatchString ("^" ++ p ++ "$")`. -/
def rmatch : List RElem → List Char → Bool
  | [] => fun s => s.isEmpty
  | .ratom a :: rest => fun s =>
      match s with
      | [] => false
      | c :: s' => matchAtom a c && rmatch rest s'
  | .rstar a :: rest => fun s => rmatchStar (rmatch rest) a s
  | .rplus a :: rest => fun s =>
      match s with
      | [] => false
      | c :: s' => matchAtom a c && rmatchStar (rmatch rest) a s'

/-- Characters that the Go loop copies verbatim into the regex but whose
RE2 operator meaning (classes, groups, counted repetition, alternation,
anchors, escapes) is outside this model. -/
def unsupportedChar (c : Char) : Bool :=
  c = '[' || c = ']' || c = '(' || c = ')' || c = '{' || c = '}' ||
  c = '|' || c = '^' || c = '$' || c = '\\'

/-- Whether a character list starts with the RE2 repetition operator `+`. -/
def headIsPlus : List Char → Bool
  | '+' :: _ => true
  | _ => false

/-- Compilation loop of `matchesPattern` (layer.go:140-163) combined with
the RE2 parse of the emitted regex fragment.  Mirrors the Go byte loop:
`**` (checked first, consuming two characters) emits `.*`; `*` emits
`[^/]*`; `?` emits `.`; `.` emits `\.`; every other character is emitted
verbatim.  A verbatim `+` is folded into a repetition of the preceding
atom; where RE2 would reject the emitted regex (repetition after nothing
or after another repetition) the result is `none`, as it is for the
unsupported verbatim operator characters above. -/
def compileTokens : List Char → Option (List RElem)
  | [] => some []
  | [c] =>
      if c = '*' then some [RElem.rstar RAtom.rnotSlash]
      else if c = '?' then some [RElem.ratom RAtom.rdot]
      else if c = '+' then none
      else if unsupportedChar c then none
      else some [RElem.ratom (RAtom.rlit c)]
  | c :: c2 :: rest =>
      if c = '*' then
        if c2 = '*' then
          if headIsPlus rest then none
          else (compileTokens rest).map (fun ts => RElem.rstar RAtom.rdot :: ts)
        else if c2 = '+' then none
        else (compileTokens (c2 :: rest)).map (fun ts => RElem.rstar RAtom.rnotSlash :: ts)
      else if c = '?' then
        if c2 = '+' then (compileTokens rest).map (fun ts => RElem.rplus RAtom.rdot :: ts)
        else (compileTokens (c2 :: rest)).map (fun ts => RElem.ratom RAtom.rdot :: ts)
      else if c = '+' then none
      else if unsupportedChar c then none
      else
        if c2 = '+' then (compileTokens rest).map (fun ts => RElem.rplus (RAtom.rlit c) :: ts)
        else (compileTokens (c2 :: rest)).map (fun ts => RElem.ratom (RAtom.rlit c) :: ts)

/-- `strings.ReplaceAll s "\\" "/"` (layer.go:133-134). -/
def replSlash (s : String) : String :=
  String.mk (s.toList.map (fun c => if c = '\\' then '/' else c))

/-- `matchesPattern` (layer.go:126-171): exact string equality
short-circuits; otherwise backslashes in both the path and the pattern are
normalized to `/`, the pattern is compiled to a regex and matched anchored
against the whole path.  `regexp.MatchString` returns `false` when the
compiled regex is invalid, which the `none` branch mirrors. -/
def matchesPattern (filePath pattern : String) : Bool :=
  if filePath = pattern then true
  else
    match compileTokens (replSlash pattern).toList with
    | some toks => rmatch toks (replSlash filePath).toList
    | none => false

/-! ### Inclusion decision (`ShouldIncludeFile`, layer.go:174-199) -/

/-- `ShouldIncludeFile` (layer.go:174-199): with both filter lists empty
everything is included; a path matching any exclude pattern is dropped;
with a non-empty include list the path must match one include pattern;
otherwise it is included. -/
def ShouldIncludeFile (filePath : String) (excludes includes : List String) : Bool :=
  if excludes.isEmpty && includes.isEmpty then true
  else if excludes.any (fun e => matchesPattern filePath e) then false
  else if !includes.isEmpty then includes.any (fun i => matchesPattern filePath i)
  else true

/-! ### Property resolver (`MergeProperties`, layer.go:18-39) -/

/-- `config.LayerProperties` (config.go): five independently optional
string fields, empty string meaning "unset". -/
structure LayerProperties where
  FilePermissions : String
  DirectoryPermissions : String
  User : String
  Group : String
  Timestamp : String
deriving DecidableEq

/-- `MergeProperties` (layer.go:18-39): start from the global set and
overwrite each field for which the more specific set holds a non-empty
value. -/
def MergeProperties (global localProps : LayerProperties) : LayerProperties :=
  { FilePermissions :=
      if localProps.FilePermissions ≠ "" then localProps.FilePermissions
      else global.FilePermissions
    DirectoryPermissions :=
      if localProps.DirectoryPermissions ≠ "" then localProps.DirectoryPermissions
      else global.DirectoryPermissions
    User := if localProps.User ≠ "" then localProps.User else global.User
    Group := if localProps.Group ≠ "" then localProps.Group else global.Group
    Timestamp := if localProps.Timestamp ≠ "" then localProps.Timestamp else global.Timestamp }

/-! ### Go `fmt.Sscanf(s, "%d", &x)`

Used by the Go code to parse owner/group ids (layer.go:502-514,
tarutil.go:239-251) and millisecond timestamps (layer.go:516-525,
tarutil.go:253-262).  The scan skips leading blanks, accepts an optional
sign and then a non-empty run of base-10 digits; it succeeds on the
leading digit run even when unconsumed characters remain afterwards
(e.g. scanning `"2024-01-02T15:04:05Z"` yields `2024`).  Values are
modelled as unbounded `Int`; the `int64` overflow error of huge literals
is outside the inputs considered here. -/

/-- Value of a digit run read left to right. -/
def digitsVal (ds : List Char) : Nat :=
  ds.foldl (fun acc c => acc * 10 + (c.toNat - 48)) 0

/-- Core of the `%d` scan: a non-empty leading digit run, with sign. -/
def scanDigits (neg : Bool) (cs : List Char) : Option Int :=
  let ds := cs.takeWhile Char.isDigit
  if ds.isEmpty then none
  else some (if neg then -(digitsVal ds : Int) else (digitsVal ds : Int))

/-- `fmt.Sscanf(s, "%d", &x)`: `some x` on success, `none` when no integer
can be read at the front of the string. -/
def sscanfD (s : String) : Option Int :=
  match s.toList.dropWhile (fun c => c = ' ' || c = '\t') with
  | '-' :: rest => scanDigits true rest
  | '+' :: rest => scanDigits false rest
  | l => scanDigits false l

/-! ### Owner / group id resolution (layer.go:502-514, tarutil.go:239-251)

`tar.FileInfoHeader` initializes `header.Uid` / `header.Gid` from the
source file's own metadata (on Unix, the stat uid/gid).  The Go code then
overwrites the field only when the configured string is non-empty *and*
scans as an integer; otherwise the file's id silently stands. -/

/-- Id resolution for one header field: `cfgId` is the configured string,
`headerId` the value `tar.FileInfoHeader` took from the source file. -/
def resolveId (cfgId : String) (headerId : Int) : Int :=
  if cfgId ≠ "" then
    match sscanfD cfgId with
    | some v => v
    | none => headerId
  else headerId

/-- `ProcessLayers` (layer.go:278-284): an unset global user/group is
replaced by `"0"` before any layer is built. -/
def defaultId (s : String) : String := if s = "" then "0" else s

/-! ### Timestamp handling (layer.go:516-535, tarutil.go:253-281)

Times are modelled as `Int` nanoseconds since the Unix epoch;
`time.Unix(0, ms*1000000)` is `ms * 1000000` ns.  `time.Parse` with the
RFC-3339 layout is modelled for offset-normal strings without fractional
seconds (the forms the claims use). -/

/-- Civil-date to days-since-epoch (proleptic Gregorian), the arithmetic
underlying Go's `time` package for the dates involved. -/
def daysFromCivil (y m d : Int) : Int :=
  let y1 := if m ≤ 2 then y - 1 else y
  let era := (if y1 ≥ 0 then y1 else y1 - 399) / 400
  let yoe := y1 - era * 400
  let mp := if m > 2 then m - 3 else m + 9
  let doy := (153 * mp + 2) / 5 + d - 1
  let doe := yoe * 365 + yoe / 4 - yoe / 100 + doy
  era * 146097 + doe - 719468

/-- Gregorian leap-year rule. -/
def isLeapYear (y : Int) : Bool :=
  (y % 4 = 0 && y % 100 ≠ 0) || y % 400 = 0

/-- Number of days in a month. -/
def daysInMonth (y m : Int) : Int :=
  if m = 2 then (if isLeapYear y then 29 else 28)
  else if m = 4 || m = 6 || m = 9 || m = 11 then 30
  else 31

/-- Nanoseconds since epoch for a validated civil date-time with a zone
offset in seconds. -/
def civilToNs (y mo dy h mi se offSec : Int) : Int :=
  ((daysFromCivil y mo dy) * 86400 + h * 3600 + mi * 60 + se - offSec) * 1000000000

/-- Two-digit decimal value. -/
def d2 (a b : Char) : Int := ((a.toNat - 48) * 10 + (b.toNat - 48) : Nat)

/-- `time.Parse(time.RFC3339, s)` for strings of the shape
`YYYY-MM-DDTHH:MM:SS` followed by `Z` or `±HH:MM` (no fractional
seconds), with field-range validation; `none` on any malformed input. -/
def parseRFC3339 (s : String) : Option Int :=
  match s.toList with
  | y1 :: y2 :: y3 :: y4 :: '-' :: m1 :: m2 :: '-' :: d1 :: dd2 :: 'T' ::
    h1 :: h2 :: ':' :: n1 :: n2 :: ':' :: s1 :: s2 :: zone =>
    if (y1.isDigit && y2.isDigit && y3.isDigit && y4.isDigit &&
        m1.isDigit && m2.isDigit && d1.isDigit && dd2.isDigit &&
        h1.isDigit && h2.isDigit && n1.isDigit && n2.isDigit &&
        s1.isDigit && s2.isDigit) then
      let y : Int := (digitsVal [y1, y2, y3, y4] : Nat)
      let mo := d2 m1 m2
      let dy := d2 d1 dd2
      let h := d2 h1 h2
      let mi := d2 n1 n2
      let se := d2 s1 s2
      if 1 ≤ mo && mo ≤ 12 && 1 ≤ dy && dy ≤ daysInMonth y mo &&
         h ≤ 23 && mi ≤ 59 && se ≤ 59 then
        match zone with
        | ['Z'] => some (civilToNs y mo dy h mi se 0)
        | [sg, o1, o2, ':', o3, o4] =>
          if (sg = '+' || sg = '-') && o1.isDigit && o2.isDigit &&
             o3.isDigit && o4.isDigit && d2 o1 o2 ≤ 23 && d2 o3 o4 ≤ 59 then
            let off := d2 o1 o2 * 3600 + d2 o3 o4 * 60
            some (civilToNs y mo dy h mi se (if sg = '+' then off else -off))
          else none
        | _ => none
      else none
    else none
  | _ => none

/-- The three time fields of a tar header. -/
structure TarTimes where
  modTime : Int
  accessTime : Int
  changeTime : Int
deriving DecidableEq

/-- Timestamp block of `addSingleFileToTar` (tarutil.go:253-281): a
non-empty configured timestamp is first scanned with `Sscanf "%d"` as
milliseconds since epoch; only if that scan fails is `time.Parse` with
the RFC-3339 layout tried; if both fail, and when the timestamp is unset,
the source file's own modification time is used for all three fields.
`addFileToTarWithPath` (layer.go:516-535) is identical except that on a
double parse failure it leaves the values `tar.FileInfoHeader` placed in
the header (for the modification field that is again the file's own
modification time). -/
def setHeaderTimes (timestamp : String) (fileModTimeNs : Int) : TarTimes :=
  if timestamp ≠ "" then
    match sscanfD timestamp with
    | some ms => ⟨ms * 1000000, ms * 1000000, ms * 1000000⟩
    | none =>
      match parseRFC3339 timestamp with
      | some ns => ⟨ns, ns, ns⟩
      | none => ⟨fileModTimeNs, fileModTimeNs, fileModTimeNs⟩
  else ⟨fileModTimeNs, fileModTimeNs, fileModTimeNs⟩

/-! ### Directory traversal of a mapping (`ProcessLayers`, layer.go:334-379)

`filepath.Walk(file.Src, ...)` visits the source root first (relative
path `"."`) and then every descendant in depth-first lexical order, so a
directory's descendants form a contiguous block immediately after it,
each of their relative paths extending the directory's relative path.
The walk input is modelled as exactly that visit sequence: a list of
`(relative path, is-directory)` pairs in DFS order.  The callback keeps a
path if `ShouldIncludeFile` accepts it; a rejected directory makes the
callback return `filepath.SkipDir`, which drops the directory's entire
contiguous block of descendants (for the root `"."`, the rest of the
walk). -/

/-- `pre` is a leading run of `s` (`strings.HasPrefix`-style check on
character lists). -/
def leadsWith : List Char → List Char → Bool
  | [], _ => true
  | _ :: _, [] => false
  | p :: ps, c :: cs => p = c && leadsWith ps cs

/-- Relative-path prefix identifying the descendants of a rejected
directory: every path extends `rel ++ "/"`, and every non-root path
extends the root `"."`'s prefix `""`. -/
def skipKey (rel : String) : String := if rel = "." then "" else rel ++ "/"

/-- Whether the current walk entry still lies inside the subtree being
skipped. -/
def skipHit : Option String → String → Bool
  | none, _ => false
  | some pre, rel => leadsWith pre.toList rel.toList

/-- The walk callback of layer.go:334-379 run over the DFS visit
sequence, returning the relative paths appended to the archive (both
directory and file entries are appended): an accepted entry is kept; a
rejected directory starts a skip over its descendants; a rejected file is
dropped alone. -/
def runWalk (excl incl : List String) : Option String → List (String × Bool) → List String
  | _, [] => []
  | skip, (rel, isDir) :: rest =>
    if skipHit skip rel then runWalk excl incl skip rest
    else if ShouldIncludeFile rel excl incl then rel :: runWalk excl incl none rest
    else if isDir then runWalk excl incl (some (skipKey rel)) rest
    else runWalk excl incl none rest

/-- Absolute source path handed to `addFileToTarWithPath` for a walked
entry: `filepath.Walk` passes `file.Src` itself for the root and
`file.Src + "/" + rel` for a descendant. -/
def srcJoin (src rel : String) : String :=
  if rel = "." then src else src ++ "/" ++ rel

/-- The list of absolute source paths a directory mapping appends to the
layer archive (layer.go:334-379): the walked entries that survive the
inclusion decision, as source paths. -/
def mappingSources (src : String) (fsEntries : List (String × Bool))
    (excl incl : List String) : List String :=
  (runWalk excl incl none fsEntries).map (srcJoin src)

/-- `filepath.Join(rootTmpDir, fmt.Sprintf("%s.tar", name))`
(layer.go:292) for an already-clean directory path. -/
def layerTarPath (rootTmpDir name : String) : String :=
  rootTmpDir ++ "/" ++ name ++ ".tar"

/-! ### Layer orchestrator error handling (`ProcessLayers`, layer.go:287-442)

Per layer the code creates `<rootTmpDir>/<name>.tar`, processes the
mappings, and closes the writer and the file.  Every failure path —
`os.Stat` of a mapping source, the `filepath.Walk`, appending an entry,
closing the tar writer, closing the file — closes what is open, removes
the layer's tar file with `os.Remove`, and returns the error immediately;
tar files of previously completed layers are not touched.  On success the
tar path is appended to the result list.  Which operation (if any) fails
for a layer is external I/O behaviour, supplied here as an oracle value
per layer; the on-disk state is modelled as the list of files present. -/

/-- Oracle for the first failing operation while building one layer. -/
inductive LayerOutcome where
  | ok
  | failStat
  | failWalk
  | failAppend
  | failCloseWriter
  | failCloseFile
deriving DecidableEq

/-- Error message prefix per failure path (layer.go:311, 385, 419, 428, 434). -/
def errMsg : LayerOutcome → String → String
  | .ok, _ => ""
  | .failStat, n => "failed to stat file while building " ++ n
  | .failWalk, n => "failed to walk directory while building " ++ n
  | .failAppend, n => "failed to add file to tar while building " ++ n
  | .failCloseWriter, n => "failed to close tar writer while building " ++ n
  | .failCloseFile, n => "failed to close tar file while building " ++ n

/-- `ProcessLayers` (layer.go:287-442) over the per-layer outcome oracle:
returns the Go function's result (the ordered tar-path list, or the first
error) together with the final list of files on disk.  `os.Create` puts
the layer's tar file on disk; every failure removes it again and stops;
a completed layer's file stays. -/
def processLayers (tmp : String) :
    List (String × LayerOutcome) → List String → Except String (List String) × List String
  | [], disk => (.ok [], disk)
  | (name, outcome) :: rest, disk =>
    let p := layerTarPath tmp name
    let disk1 := p :: disk
    match outcome with
    | .ok =>
      match processLayers tmp rest disk1 with
      | (.ok paths, disk') => (.ok (p :: paths), disk')
      | (.error e, disk') => (.error e, disk')
    | f => (.error (errMsg f name), disk1.erase p)

/-! ### Helper lemmas -/

lemma stringToListMk (l : List Char) : (String.mk l).toList = l := rfl

lemma toListInj {s t : String} : s.toList = t.toList ↔ s = t := by
  constructor
  · intro h
    cases s
    cases t
    exact congrArg String.mk h
  · intro h
    rw [h]

lemma replSlash_eq_self (s : String) (h : '\\' ∉ s.toList) : replSlash s = s := by
  unfold replSlash
  have hm : s.toList.map (fun c => if c = '\\' then '/' else c) = s.toList := by
    conv_rhs => rw [← List.map_id s.toList]
    exact List.map_congr_left (fun c hc => by
      have hne : c ≠ '\\' := fun hcc => h (hcc ▸ hc)
      simp [hne])
  rw [hm]
  cases s
  rfl

lemma slash_mem_replSlash {s : String} (h : '/' ∈ s.toList) :
    '/' ∈ (replSlash s).toList := by
  unfold replSlash
  rw [stringToListMk]
  exact List.mem_map.mpr ⟨'/', h, by decide⟩

/-- `[^/]*` anchored at the end of the regex cannot absorb a string that
still contains a `/`. -/
lemma rmatchStarNotSlash_of_slash {l : List Char} (h : '/' ∈ l) :
    rmatchStar (fun s => s.isEmpty) RAtom.rnotSlash l = false := by
  induction l with
  | nil => simp at h
  | cons c cs ih =>
    rcases List.mem_cons.mp h with hc | hc
    · simp [rmatchStar, matchAtom, ← hc]
    · simp [rmatchStar, matchAtom, ih hc]

/-- The compiled form of pattern `a*` rejects every path containing `/`. -/
lemma litSegStar_no_slash (c : Char) (hc : c ≠ '/') {l : List Char} (h : '/' ∈ l) :
    rmatch [RElem.ratom (RAtom.rlit c), RElem.rstar RAtom.rnotSlash] l = false := by
  cases l with
  | nil => simp at h
  | cons x xs =>
    show (matchAtom (RAtom.rlit c) x &&
      rmatchStar (rmatch []) RAtom.rnotSlash xs) = false
    rcases List.mem_cons.mp h with hx | hx
    · cases hx
      have hm : matchAtom (RAtom.rlit c) '/' = false := by
        simp only [matchAtom, decide_eq_false_iff_not]
        exact fun hh => hc hh.symm
      rw [hm, Bool.false_and]
    · have hrest : rmatchStar (rmatch []) RAtom.rnotSlash xs = false := by
        have he : rmatch ([] : List RElem) = fun s : List Char => s.isEmpty := rfl
        rw [he]
        exact rmatchStarNotSlash_of_slash hx
      rw [hrest, Bool.and_false]

/-- Characters whose compiled form is the literal atom for that character:
everything except the wildcard markers and the characters with a regex
operator meaning. -/
def plainChar (c : Char) : Bool :=
  !(c = '*' || c = '?' || c = '+' || unsupportedChar c)

lemma compileTokens_lits (l : List Char) (h : ∀ c ∈ l, plainChar c = true) :
    compileTokens l = some (l.map (fun c => RElem.ratom (RAtom.rlit c))) := by
  induction l with
  | nil => rfl
  | cons c rest ih =>
    have hc := h c (List.mem_cons_self c rest)
    simp only [plainChar, Bool.not_eq_true', Bool.or_eq_false_iff,
      decide_eq_false_iff_not] at hc
    obtain ⟨⟨⟨h1, h2⟩, h3⟩, h4⟩ := hc
    have hrest : ∀ x ∈ rest, plainChar x = true :=
      fun x hx => h x (List.mem_cons_of_mem c hx)
    cases rest with
    | nil =>
      show compileTokens [c] = _
      unfold compileTokens
      rw [if_neg h1, if_neg h2, if_neg h3, if_neg (by simp [h4])]
      rfl
    | cons c2 rs =>
      have hc2 := hrest c2 (List.mem_cons_self c2 rs)
      simp only [plainChar, Bool.not_eq_true', Bool.or_eq_false_iff,
        decide_eq_false_iff_not] at hc2
      obtain ⟨⟨⟨_, _⟩, hc2p⟩, _⟩ := hc2
      show compileTokens (c :: c2 :: rs) = _
      unfold compileTokens
      rw [if_neg h1, if_neg h2, if_neg h3, if_neg (by simp [h4]), if_neg hc2p,
        ih hrest]
      simp

lemma rmatch_lits (l : List Char) : ∀ s : List Char,
    (rmatch (l.map (fun c => RElem.ratom (RAtom.rlit c))) s = true ↔ s = l) := by
  induction l with
  | nil =>
    intro s
    cases s <;> simp [rmatch]
  | cons c rest ih =>
    intro s
    cases s with
    | nil => simp [rmatch]
    | cons x xs =>
      simp [rmatch, matchAtom, ih xs, List.cons_eq_cons]

lemma runWalk_skipUnder (excl incl : List String) (pre : String)
    (rest : List (String × Bool))
    (h : ∀ e ∈ rest, leadsWith pre.toList e.1.toList = true) :
    runWalk excl incl (some pre) rest = [] := by
  induction rest with
  | nil => rfl
  | cons e rest ih =>
    obtain ⟨rel, isDir⟩ := e
    have hh : skipHit (some pre) rel = true := h (rel, isDir) (List.mem_cons_self _ _)
    have hrest := fun e he => h e (List.mem_cons_of_mem _ he)
    simp [runWalk, hh, ih hrest]

lemma runWalk_skipAll (excl incl : List String) (rest : List (String × Bool)) :
    runWalk excl incl (some "") rest = [] :=
  runWalk_skipUnder excl incl "" rest (fun _ _ => rfl)

lemma processLayers_allOk (tmp : String) (layers : List (String × LayerOutcome)) :
    ∀ disk : List String, (∀ l ∈ layers, l.2 = .ok) →
      processLayers tmp layers disk =
        (.ok (layers.map (fun l => layerTarPath tmp l.1)),
         (layers.map (fun l => layerTarPath tmp l.1)).reverse ++ disk) := by
  induction layers with
  | nil => intro disk _; simp [processLayers]
  | cons a rest ih =>
    intro disk h
    obtain ⟨name, outcome⟩ := a
    have ha : outcome = .ok := h (name, outcome) (List.mem_cons_self _ _)
    subst ha
    have hrest : ∀ l ∈ rest, l.2 = .ok :=
      fun l hl => h l (List.mem_cons_of_mem _ hl)
    simp only [processLayers]
    rw [ih (layerTarPath tmp name :: disk) hrest]
    simp

lemma processLayers_failAt (tmp name : String) (outcome : LayerOutcome)
    (pre post : List (String × LayerOutcome))
    (hf : outcome ≠ .ok) :
    ∀ disk : List String, (∀ l ∈ pre, l.2 = .ok) →
      processLayers tmp (pre ++ (name, outcome) :: post) disk =
        (.error (errMsg outcome name),
         (pre.map (fun l => layerTarPath tmp l.1)).reverse ++ disk) := by
  induction pre with
  | nil =>
    intro disk _
    simp only [List.nil_append, processLayers]
    cases outcome with
    | ok => exact absurd rfl hf
    | failStat => simp [List.erase_cons_head]
    | failWalk => simp [List.erase_cons_head]
    | failAppend => simp [List.erase_cons_head]
    | failCloseWriter => simp [List.erase_cons_head]
    | failCloseFile => simp [List.erase_cons_head]
  | cons a rest ih =>
    intro disk h
    obtain ⟨n0, o0⟩ := a
    have ha : o0 = .ok := h (n0, o0) (List.mem_cons_self _ _)
    subst ha
    have hrest : ∀ l ∈ rest, l.2 = .ok :=
      fun l hl => h l (List.mem_cons_of_mem _ hl)
    simp only [List.cons_append, processLayers, List.append_eq]
    rw [ih (layerTarPath tmp n0 :: disk) hrest]
    simp

/-! ### Claims -/

/-- C1: The claim states that a layer's own output archive
`<rootTmpDir>/<name>.tar` never appears inside that archive's content even
when it lies inside a mapped directory.  The walk of `ProcessLayers`
(layer.go:334-379) filters only with `ShouldIncludeFile` and never
compares a walked path against `layerTarPath`, so when the mapping's
source directory contains `rootTmpDir` the freshly created archive file
is walked and appended into itself: with source `/work` containing
`tmp/app.tar` (the archive under construction for layer `app` with
`rootTmpDir = /work/tmp`) and no filters, the archive's own path is among
the appended source paths. -/
theorem layerArchiveEntersItself :
    layerTarPath "/work/tmp" "app" ∈
      mappingSources "/work"
        [(".", true), ("data.txt", false), ("tmp", true), ("tmp/app.tar", false)]
        [] [] := by decide

/-- C2: For a non-empty configured timestamp the three header time fields
are always set equal, and an integer millisecond-epoch string yields the
configured instant; but an RFC-3339 string is NOT applied as the claim
states: `Sscanf "%d"` succeeds on its leading year digits, so
`"2024-01-02T15:04:05Z"` sets all three fields to 2024 milliseconds after
the epoch instead of the RFC-3339 instant 1704207845 s. -/
theorem timestampRfc3339Misparsed :
    (∀ ts : String, ∀ f : Int,
        (setHeaderTimes ts f).accessTime = (setHeaderTimes ts f).modTime ∧
        (setHeaderTimes ts f).changeTime = (setHeaderTimes ts f).modTime) ∧
    setHeaderTimes "1700000000000" 0 =
      ⟨1700000000000000000, 1700000000000000000, 1700000000000000000⟩ ∧
    setHeaderTimes "2024-01-02T15:04:05Z" 0 = ⟨2024000000, 2024000000, 2024000000⟩ ∧
    parseRFC3339 "2024-01-02T15:04:05Z" = some 1704207845000000000 ∧
    ((2024000000 : Int) ≠ 1704207845000000000) := by
  refine ⟨?_, by decide, by decide, by decide, by decide⟩
  intro ts f
  unfold setHeaderTimes
  split
  · split
    · exact ⟨rfl, rfl⟩
    · split
      · exact ⟨rfl, rfl⟩
      · exact ⟨rfl, rfl⟩
  · exact ⟨rfl, rfl⟩

/-- C3 counterexample: the claim says an owner id string that does not
parse as a decimal integer makes the header owner id `0`; but the code
(layer.go:502-514, tarutil.go:239-251) leaves the id that
`tar.FileInfoHeader` took from the source file, so with configured user
`"bob"` on a file owned by uid 1000 the header id is 1000, not 0. -/
theorem unparsableIdKeepsFileOwner :
    resolveId "bob" 1000 = 1000 ∧ (1000 : Int) ≠ 0 := by decide

/-- C3 amended: an id string unset at every scope is defaulted to `"0"`
by `ProcessLayers` and therefore resolves to header id 0; a non-empty
string that scans as a decimal integer is used; a non-empty string that
does not scan keeps the header id taken from the source file's metadata.
In every case the build continues (the scan error is discarded). -/
theorem idResolution (s : String) (fileId v : Int) :
    resolveId (defaultId "") fileId = 0 ∧
    (s ≠ "" → sscanfD s = none → resolveId s fileId = fileId) ∧
    (s ≠ "" → sscanfD s = some v → resolveId s fileId = v) := by
  refine ⟨?_, ?_, ?_⟩
  · have hd : defaultId "" = "0" := rfl
    have h0 : sscanfD "0" = some 0 := by decide
    rw [hd]
    simp [resolveId, h0]
  · intro hne hnone
    simp [resolveId, hne, hnone]
  · intro hne hsome
    simp [resolveId, hne, hsome]

/-- C3 amended, witness at concrete inputs. -/
theorem idResolution_w : resolveId "bob" 7 = 7 :=
  (idResolution "bob" 7 0).2.1 (by decide) (by decide)

/-- C4: a single `*` compiles to `[^/]*` and never crosses a path
separator — every candidate containing `/` fails against pattern `"a*"` —
while `"ab"` matches `"a*"` and `**` crosses separators:
`"a/b/c.txt"` matches `"**/*.txt"`. -/
theorem starStaysInsideSegment (fp : String) (h : '/' ∈ fp.toList) :
    matchesPattern fp "a*" = false ∧
    matchesPattern "ab" "a*" = true ∧
    matchesPattern "a/b/c.txt" "**/*.txt" = true := by
  refine ⟨?_, by decide, by decide⟩
  have hne : fp ≠ "a*" := by
    intro he
    subst he
    exact absurd h (by decide)
  unfold matchesPattern
  rw [if_neg hne]
  have hc : compileTokens (replSlash "a*").toList =
      some [RElem.ratom (RAtom.rlit 'a'), RElem.rstar RAtom.rnotSlash] := by decide
  rw [hc]
  exact litSegStar_no_slash 'a' (by decide) (slash_mem_replSlash h)

/-- C4 witness: `"a/b"` contains a separator, hence fails against `"a*"`. -/
theorem starStaysInsideSegment_w :
    matchesPattern "a/b" "a*" = false ∧ matchesPattern "ab" "a*" = true :=
  ⟨(starStaysInsideSegment "a/b" (by decide)).1,
   (starStaysInsideSegment "a/b" (by decide)).2.1⟩

/-- C5: a path matching any exclude pattern is excluded regardless of the
include list; concretely `"f.txt"` with excludes `["*.txt"]` and includes
`["f.*"]` is excluded; and with both lists empty every path is
included. -/
theorem excludeDominatesInclude (p : String) (excludes includes : List String)
    (h : excludes.any (fun e => matchesPattern p e) = true) :
    ShouldIncludeFile p excludes includes = false ∧
    ShouldIncludeFile "f.txt" ["*.txt"] ["f.*"] = false ∧
    (∀ q : String, ShouldIncludeFile q [] [] = true) := by
  refine ⟨?_, by decide, fun q => by simp [ShouldIncludeFile]⟩
  have hne : excludes.isEmpty = false := by
    cases excludes
    · simp at h
    · rfl
  simp [ShouldIncludeFile, hne, h]

/-- C5 witness at the concrete inputs of the claim. -/
theorem excludeDominatesInclude_w :
    ShouldIncludeFile "f.txt" ["*.txt"] ["f.*"] = false :=
  (excludeDominatesInclude "f.txt" ["*.txt"] ["f.*"] (by decide)).1

/-- C6: `MergeProperties` is the field-wise merge in which a non-empty
value on the more specific set wins and an empty one inherits the less
specific value, for each of the five fields; across the two merges
performed by `ProcessLayers` (global with layer, then that result with
the mapping override) a field set only globally survives unchanged, and a
field set at the mapping scope takes the mapping's value. -/
theorem mergePrecedence (g l m : LayerProperties) :
    ((MergeProperties g l).FilePermissions =
      if l.FilePermissions = "" then g.FilePermissions else l.FilePermissions) ∧
    ((MergeProperties g l).DirectoryPermissions =
      if l.DirectoryPermissions = "" then g.DirectoryPermissions else l.DirectoryPermissions) ∧
    ((MergeProperties g l).User = if l.User = "" then g.User else l.User) ∧
    ((MergeProperties g l).Group = if l.Group = "" then g.Group else l.Group) ∧
    ((MergeProperties g l).Timestamp = if l.Timestamp = "" then g.Timestamp else l.Timestamp) ∧
    (l.FilePermissions = "" → m.FilePermissions = "" →
      (MergeProperties (MergeProperties g l) m).FilePermissions = g.FilePermissions) ∧
    (l.DirectoryPermissions = "" → m.DirectoryPermissions = "" →
      (MergeProperties (MergeProperties g l) m).DirectoryPermissions = g.DirectoryPermissions) ∧
    (l.User = "" → m.User = "" →
      (MergeProperties (MergeProperties g l) m).User = g.User) ∧
    (l.Group = "" → m.Group = "" →
      (MergeProperties (MergeProperties g l) m).Group = g.Group) ∧
    (l.Timestamp = "" → m.Timestamp = "" →
      (MergeProperties (MergeProperties g l) m).Timestamp = g.Timestamp) ∧
    (m.FilePermissions ≠ "" →
      (MergeProperties (MergeProperties g l) m).FilePermissions = m.FilePermissions) ∧
    (m.DirectoryPermissions ≠ "" →
      (MergeProperties (MergeProperties g l) m).DirectoryPermissions = m.DirectoryPermissions) ∧
    (m.User ≠ "" → (MergeProperties (MergeProperties g l) m).User = m.User) ∧
    (m.Group ≠ "" → (MergeProperties (MergeProperties g l) m).Group = m.Group) ∧
    (m.Timestamp ≠ "" → (MergeProperties (MergeProperties g l) m).Timestamp = m.Timestamp) := by
  refine ⟨?_, ?_, ?_, ?_, ?_, ?_, ?_, ?_, ?_, ?_, ?_, ?_, ?_, ?_, ?_⟩ <;>
    intros <;> simp_all [MergeProperties]

/-- C6 witness: user set only globally survives two merges; a timestamp
set at the mapping scope wins. -/
theorem mergePrecedence_w :
    (MergeProperties (MergeProperties ⟨"611", "711", "root", "wheel", "7"⟩
        ⟨"", "", "", "", ""⟩) ⟨"", "", "", "", "9"⟩).User = "root" ∧
    (MergeProperties (MergeProperties ⟨"611", "711", "root", "wheel", "7"⟩
        ⟨"", "", "", "", ""⟩) ⟨"", "", "", "", "9"⟩).Timestamp = "9" := by
  obtain ⟨-, -, -, -, -, -, -, hUser, -, -, -, -, -, -, hTs⟩ :=
    mergePrecedence ⟨"611", "711", "root", "wheel", "7"⟩
      ⟨"", "", "", "", ""⟩ ⟨"", "", "", "", "9"⟩
  exact ⟨hUser rfl rfl, hTs (by decide)⟩

/-- C7 counterexample: the claim says every token other than `*`, `**`,
`?` is treated as literal text, so a pattern without `*` or `?` should
match only the identical string; but `+` is copied into the regex as the
RE2 repetition operator, and pattern `"a+"` matches the different string
`"aa"`. -/
theorem plusTokenIsNotLiteral :
    matchesPattern "aa" "a+" = true ∧ ("aa" : String) ≠ "a+" := by decide

/-- C7 amended: pattern characters other than the wildcard markers are
copied into the regular expression with only `.` escaped, so characters
with a regex operator meaning (`+ [ ] ( ) { } | ^ $ \`) keep it; a
pattern containing no `*`, no `?` and none of those operator characters
matches, among backslash-free candidates, exactly the candidate identical
to it. -/
theorem literalPatternMatchesOnlyItself (p fp : String)
    (hp : ∀ c ∈ p.toList, plainChar c = true)
    (hfp : '\\' ∉ fp.toList) :
    (matchesPattern fp p = true ↔ fp = p) := by
  have hpns : '\\' ∉ p.toList := by
    intro hm
    have := hp '\\' hm
    simp [plainChar, unsupportedChar] at this
  by_cases he : fp = p
  · simp [matchesPattern, he]
  · unfold matchesPattern
    rw [if_neg he, replSlash_eq_self p hpns, replSlash_eq_self fp hfp,
      compileTokens_lits p.toList hp]
    show rmatch (p.toList.map fun c => RElem.ratom (RAtom.rlit c)) fp.toList = true ↔ fp = p
    rw [rmatch_lits p.toList fp.toList, toListInj]

/-- C7 amended, witness: `"a.b"` is operator-free, and the escaped dot
matches only a literal dot, so `"axb"` does not match. -/
theorem literalPatternMatchesOnlyItself_w : matchesPattern "axb" "a.b" = false := by
  have h := literalPatternMatchesOnlyItself "a.b" "axb" (by decide) (by decide)
  exact Bool.eq_false_iff.mpr (fun ht => absurd (h.mp ht) (by decide))

/-- C8: when the oracle makes layer `(name, outcome)` fail (any of the
stat, walk, append or close failure paths) after a prefix of layers that
all succeeded, `ProcessLayers` returns the error and the final disk state
holds exactly the archives of the completed earlier layers — the failing
layer's partial archive has been removed, the earlier ones untouched;
and when every layer succeeds it returns the archive paths in
layer-declaration order. -/
theorem failureRemovesOnlyOwnArchive (tmp name : String) (outcome : LayerOutcome)
    (pre post layers : List (String × LayerOutcome)) (disk : List String)
    (hpre : ∀ l ∈ pre, l.2 = .ok) (hf : outcome ≠ .ok)
    (hall : ∀ l ∈ layers, l.2 = .ok) :
    processLayers tmp (pre ++ (name, outcome) :: post) disk =
      (.error (errMsg outcome name),
       (pre.map (fun l => layerTarPath tmp l.1)).reverse ++ disk) ∧
    processLayers tmp layers disk =
      (.ok (layers.map (fun l => layerTarPath tmp l.1)),
       (layers.map (fun l => layerTarPath tmp l.1)).reverse ++ disk) :=
  ⟨processLayers_failAt tmp name outcome pre post hf disk hpre,
   processLayers_allOk tmp layers disk hall⟩

/-- C8 witness: layer `b` fails its walk after layer `a` completed: the
error is returned and only `a`'s archive remains on disk. -/
theorem failureRemovesOnlyOwnArchive_w :
    processLayers "/t" [("a", .ok), ("b", .failWalk)] [] =
      (.error (errMsg .failWalk "b"), [layerTarPath "/t" "a"]) ∧
    processLayers "/t" [("a", .ok), ("c", .ok)] [] =
      (.ok [layerTarPath "/t" "a", layerTarPath "/t" "c"],
       [layerTarPath "/t" "c", layerTarPath "/t" "a"]) := by
  have h := failureRemovesOnlyOwnArchive "/t" "b" .failWalk [("a", .ok)] []
    [("a", .ok), ("c", .ok)] [] (by decide) (by decide) (by decide)
  refine ⟨?_, ?_⟩
  · have h1 := h.1
    simpa using h1
  · have h2 := h.2
    simpa using h2

/-- C9: a directory rejected by the inclusion decision is skipped with
its entire subtree (`filepath.SkipDir`); in particular when the root's
relative path `"."` is rejected — as with any non-empty include list
whose patterns do not match `"."`, e.g. `["**/*.txt"]` — the mapping
contributes no entries at all, even though a descendant such as
`"sub/a.txt"` would match an include pattern. -/
theorem rejectedDirSkipsSubtree (excl incl : List String) (rel : String)
    (entries sub : List (String × Bool))
    (hroot : ShouldIncludeFile "." excl incl = false)
    (hrel : ShouldIncludeFile rel excl incl = false)
    (hunder : ∀ e ∈ sub, leadsWith (skipKey rel).toList e.1.toList = true) :
    runWalk excl incl none ((".", true) :: entries) = [] ∧
    runWalk excl incl none ((rel, true) :: sub) = [] ∧
    ShouldIncludeFile "." [] ["**/*.txt"] = false ∧
    ShouldIncludeFile "sub/a.txt" [] ["**/*.txt"] = true ∧
    runWalk [] ["**/*.txt"] none [(".", true), ("sub", true), ("sub/a.txt", false)] = [] := by
  refine ⟨?_, ?_, by decide, by decide, by decide⟩
  · have hk : skipKey "." = "" := rfl
    simp [runWalk, skipHit, hroot, hk, runWalk_skipAll]
  · simp [runWalk, skipHit, hrel, runWalk_skipUnder excl incl (skipKey rel) sub hunder]

/-- C9 witness: includes `["**/*.txt"]` reject the root `"."`, so the
walk of the mapping yields nothing. -/
theorem rejectedDirSkipsSubtree_w :
    runWalk [] ["**/*.txt"] none [(".", true), ("sub", true)] = [] :=
  (rejectedDirSkipsSubtree [] ["**/*.txt"] "sub" [("sub", true)] [("sub/a.txt", false)]
    (by decide) (by decide) (by decide)).1

/-- C10: `?` compiles to the regex `.`, which matches any character other
than a newline — including the path separator: `"a?b"` matches
`"a/b"`. -/
theorem questionCrossesSeparator (c : Char) (h : c ≠ '\n') :
    matchesPattern (String.mk ['a', c, 'b']) "a?b" = true ∧
    matchesPattern "a/b" "a?b" = true := by
  refine ⟨?_, by decide⟩
  by_cases he : String.mk ['a', c, 'b'] = "a?b"
  · unfold matchesPattern
    rw [if_pos he]
  · unfold matchesPattern
    rw [if_neg he]
    have hc : compileTokens (replSlash "a?b").toList =
        some [RElem.ratom (RAtom.rlit 'a'), RElem.ratom RAtom.rdot,
          RElem.ratom (RAtom.rlit 'b')] := by decide
    rw [hc]
    have hfc : (if c = '\\' then '/' else c) ≠ '\n' := by
      by_cases hbc : c = '\\'
      · rw [if_pos hbc]
        decide
      · rw [if_neg hbc]
        exact h
    show rmatch [RElem.ratom (RAtom.rlit 'a'), RElem.ratom RAtom.rdot,
        RElem.ratom (RAtom.rlit 'b')]
      (['a', c, 'b'].map (fun x => if x = '\\' then '/' else x)) = true
    simp [rmatch, rmatchStar, matchAtom, hfc]

/-- C10 witness at the separator itself. -/
theorem questionCrossesSeparator_w : matchesPattern "a/b" "a?b" = true :=
  (questionCrossesSeparator '/' (by decide)).2

end CraneJib
